import Mathlib

/-!
# wsudoku: session records and the game directory

A shallow embedding of `livegame.go` (`LiveGame`, `Player`, `NewLiveGame`, `FetchGames`) and of
`CreateNewGame` from `main.go`, with the library routines they call (`crypto/sha256`,
`encoding/json`, `encoding/base64`, UTF-8 coding) modelled next to them.

Conventions.
* A Go `string` or `[]byte` is a list of bytes (`List Nat`, every element below 256).
* A Go slice value is `Option (List α)`: `none` is the nil slice.
* Clock readings, random draws and the answers of the network are inputs of the model.
-/

namespace WSudoku

/-! ## Bytes and UTF-8 -/

/-- Go `string`: an immutable sequence of bytes, not necessarily valid UTF-8. -/
abbrev GoString := List Nat

/-- UTF-8 encoding of one Unicode scalar value. -/
def encodeRune (c : Char) : List Nat :=
  let n := c.toNat
  if n < 128 then [n]
  else if n < 2048 then [192 + n / 64, 128 + n % 64]
  else if n < 65536 then [224 + n / 4096, 128 + n / 64 % 64, 128 + n % 64]
  else [240 + n / 262144, 128 + n / 4096 % 64, 128 + n / 64 % 64, 128 + n % 64]

/-- Bytes of a text: what `[]byte(s)` holds for a Go string written as the literal `s`. -/
def utf8 (s : String) : GoString := s.toList.flatMap encodeRune

/-- Continuation byte test, `0x80 <= b <= 0xBF`. -/
def isCont (b : Nat) : Bool := 128 ≤ b && b ≤ 191

/-- The function `utf8.DecodeRune`: the code point at the head of `s` and the number of bytes it
takes. An invalid or truncated encoding yields `(0xFFFD, 1)`; the empty input yields size 0. -/
def decodeRune (s : List Nat) : Nat × Nat :=
  match s with
  | [] => (65533, 0)
  | b0 :: rest =>
    if b0 < 128 then (b0, 1)
    else if 194 ≤ b0 && b0 ≤ 223 then
      match rest with
      | b1 :: _ => if isCont b1 then ((b0 - 192) * 64 + (b1 - 128), 2) else (65533, 1)
      | _ => (65533, 1)
    else if 224 ≤ b0 && b0 ≤ 239 then
      match rest with
      | b1 :: b2 :: _ =>
        let lo := if b0 = 224 then 160 else 128
        let hi := if b0 = 237 then 159 else 191
        if lo ≤ b1 && b1 ≤ hi && isCont b2 then
          ((b0 - 224) * 4096 + (b1 - 128) * 64 + (b2 - 128), 3)
        else (65533, 1)
      | _ => (65533, 1)
    else if 240 ≤ b0 && b0 ≤ 244 then
      match rest with
      | b1 :: b2 :: b3 :: _ =>
        let lo := if b0 = 240 then 144 else 128
        let hi := if b0 = 244 then 143 else 191
        if lo ≤ b1 && b1 ≤ hi && isCont b2 && isCont b3 then
          ((b0 - 240) * 262144 + (b1 - 128) * 4096 + (b2 - 128) * 64 + (b3 - 128), 4)
        else (65533, 1)
      | _ => (65533, 1)
    else (65533, 1)

/-- Rune-by-rune reading of a byte string, every invalid byte read as U+FFFD. -/
def decodeRunes : Nat → List Nat → List Char
  | 0, _ => []
  | fuel + 1, s =>
    match s with
    | [] => []
    | _ :: _ =>
      let r := decodeRune s
      Char.ofNat r.1 :: decodeRunes fuel (s.drop r.2)

/-- The text the JSON encoder writes for a Go string: the string coerced to valid UTF-8, each
invalid byte replaced by the replacement rune U+FFFD. -/
def coerceUTF8 (s : GoString) : String := String.mk (decodeRunes s.length s)

/-! ## SHA-256 (`crypto/sha256`) -/

namespace Sha256

/-- Round constants. -/
def K : List Nat := [
  0x428a2f98, 0x71374491, 0xb5c0fbcf, 0xe9b5dba5, 0x3956c25b, 0x59f111f1, 0x923f82a4, 0xab1c5ed5,
  0xd807aa98, 0x12835b01, 0x243185be, 0x550c7dc3, 0x72be5d74, 0x80deb1fe, 0x9bdc06a7, 0xc19bf174,
  0xe49b69c1, 0xefbe4786, 0x0fc19dc6, 0x240ca1cc, 0x2de92c6f, 0x4a7484aa, 0x5cb0a9dc, 0x76f988da,
  0x983e5152, 0xa831c66d, 0xb00327c8, 0xbf597fc7, 0xc6e00bf3, 0xd5a79147, 0x06ca6351, 0x14292967,
  0x27b70a85, 0x2e1b2138, 0x4d2c6dfc, 0x53380d13, 0x650a7354, 0x766a0abb, 0x81c2c92e, 0x92722c85,
  0xa2bfe8a1, 0xa81a664b, 0xc24b8b70, 0xc76c51a3, 0xd192e819, 0xd6990624, 0xf40e3585, 0x106aa070,
  0x19a4c116, 0x1e376c08, 0x2748774c, 0x34b0bcb5, 0x391c0cb3, 0x4ed8aa4a, 0x5b9cca4f, 0x682e6ff3,
  0x748f82ee, 0x78a5636f, 0x84c87814, 0x8cc70208, 0x90befffa, 0xa4506ceb, 0xbef9a3f7, 0xc67178f2]

/-- Initial hash value. -/
def iv : List Nat :=
  [0x6a09e667, 0xbb67ae85, 0x3c6ef372, 0xa54ff53a, 0x510e527f, 0x9b05688c, 0x1f83d9ab, 0x5be0cd19]

/-- Addition of 32-bit words. -/
def add32 (a b : Nat) : Nat := (a + b) % 4294967296

/-- Rotation of a 32-bit word to the right. -/
def rotr (x n : Nat) : Nat := ((x >>> n) ||| (x <<< (32 - n))) % 4294967296

def bsig0 (x : Nat) : Nat := rotr x 2 ^^^ rotr x 13 ^^^ rotr x 22
def bsig1 (x : Nat) : Nat := rotr x 6 ^^^ rotr x 11 ^^^ rotr x 25
def ssig0 (x : Nat) : Nat := rotr x 7 ^^^ rotr x 18 ^^^ (x >>> 3)
def ssig1 (x : Nat) : Nat := rotr x 17 ^^^ rotr x 19 ^^^ (x >>> 10)
def ch (x y z : Nat) : Nat := (x &&& y) ^^^ ((4294967295 - x) &&& z)
def maj (x y z : Nat) : Nat := (x &&& y) ^^^ (x &&& z) ^^^ (y &&& z)

/-- Message padding: the byte 0x80, zero bytes up to 56 modulo 64, the bit length on 8 bytes. -/
def pad (msg : List Nat) : List Nat :=
  let l := msg.length
  msg ++ [128] ++ List.replicate ((119 - l % 64) % 64) 0 ++
    (List.range 8).map (fun i => ((8 * l) >>> (8 * (7 - i))) % 256)

/-- Big-endian words of a byte sequence. -/
def words : List Nat → List Nat
  | b0 :: b1 :: b2 :: b3 :: rest => (((b0 * 256 + b1) * 256 + b2) * 256 + b3) :: words rest
  | _ => []

/-- Message schedule extension; `w` holds the words computed so far, newest first. -/
def extend : Nat → List Nat → List Nat
  | 0, w => w
  | n + 1, w =>
    extend n (add32 (add32 (ssig1 (w.getD 1 0)) (w.getD 6 0))
      (add32 (ssig0 (w.getD 14 0)) (w.getD 15 0)) :: w)

/-- The 64 schedule words of a 16-word block. -/
def schedule (block : List Nat) : List Nat := (extend 48 block.reverse).reverse

/-- One round of the compression function on the working variables `a..h`. -/
def round (s : List Nat) (kw : Nat × Nat) : List Nat :=
  match s with
  | [a, b, c, d, e, f, g, h] =>
    let t1 := add32 (add32 (add32 h (bsig1 e)) (add32 (ch e f g) kw.1)) kw.2
    let t2 := add32 (bsig0 a) (maj a b c)
    [add32 t1 t2, a, b, c, add32 d t1, e, f, g]
  | _ => s

/-- Compression of one block into the chaining value. -/
def compress (h : List Nat) (block : List Nat) : List Nat :=
  List.zipWith add32 h ((K.zip (schedule block)).foldl round h)

/-- Split into `n` blocks of 16 words. -/
def blocks : Nat → List Nat → List (List Nat)
  | 0, _ => []
  | n + 1, ws => ws.take 16 :: blocks n (ws.drop 16)

/-- Big-endian bytes of a 32-bit word. -/
def wordBytes (w : Nat) : List Nat := [w >>> 24, (w >>> 16) % 256, (w >>> 8) % 256, w % 256]

/-- The function `sha256.Sum256`: the 32-byte digest of `msg`. -/
def Sum256 (msg : List Nat) : List Nat :=
  let ws := words (pad msg)
  ((blocks (ws.length / 16) ws).foldl compress iv).flatMap wordBytes

end Sha256

/-! ## Data model (`livegame.go`) -/

/-- The struct `Player`. -/
structure Player where
  ID : GoString
  JoinTime : Int
  CurrentGame : GoString
  IsAdmin : Bool
  Finished : Bool
  deriving DecidableEq, Repr

/-- The struct `LiveGame`. The slices `Players` and `GameData` are `none` when nil. -/
structure LiveGame where
  PlayerCount : Int
  Players : Option (List Player)
  GameID : GoString
  GameData : Option (List Nat)
  Title : GoString
  deriving DecidableEq, Repr

/-- The builtin `len` on a slice. -/
def len {α : Type} (s : Option (List α)) : Nat := (s.getD []).length

/-- The zero value of `Player`. -/
def Player.zero : Player := ⟨[], 0, [], false, false⟩

/-- The zero value of `LiveGame`, what `var game LiveGame` declares. -/
def LiveGame.zero : LiveGame := ⟨0, none, [], none, []⟩

/-- The function `NewLiveGame`; `now` is the reading `time.Now().UnixMicro()`. -/
def NewLiveGame (title : GoString) (player : Player) (now : Int) : LiveGame :=
  let hash := Sha256.Sum256 title
  let game : LiveGame :=
    { PlayerCount := 1, Players := none, GameID := hash, GameData := none, Title := title }
  let player := { player with CurrentGame := game.GameID }
  let player := { player with IsAdmin := true }
  let player := { player with JoinTime := now }
  let players : List Player := []
  let players := players ++ [player]
  { game with Players := some players }

/-! ## JSON values and Base64 (`encoding/json`, `encoding/base64`) -/

/-- A JSON value as the decoder of `encoding/json` reads it off a valid JSON text: strings are
already unquoted (hence valid Unicode), a number literal is kept as an integer literal with its
sign, or as `frac` when it has a fraction or an exponent. -/
inductive JValue where
  | null
  | bool (b : Bool)
  | int (neg : Bool) (mag : Nat)
  | frac
  | str (s : String)
  | arr (items : List JValue)
  | obj (members : List (String × JValue))

/-- The bytes of a message payload as `json.Unmarshal` sees them: `none` when they are not a valid
JSON text (the validity scan rejects them), else the value they denote. -/
abbrev Payload := Option JValue

/-- The Base64 alphabet of `base64.StdEncoding`. -/
def b64Alphabet : List Char :=
  "ABCDEFGHIJKLMNOPQRSTUVWXYZabcdefghijklmnopqrstuvwxyz0123456789+/".toList

/-- Encoding of up to three bytes at a time, padded with `=`. -/
def b64Encode : List Nat → List Char
  | b0 :: b1 :: b2 :: rest =>
    b64Alphabet.getD (b0 / 4) 'A' :: b64Alphabet.getD (b0 % 4 * 16 + b1 / 16) 'A' ::
      b64Alphabet.getD (b1 % 16 * 4 + b2 / 64) 'A' :: b64Alphabet.getD (b2 % 64) 'A' ::
      b64Encode rest
  | [b0, b1] =>
    [b64Alphabet.getD (b0 / 4) 'A', b64Alphabet.getD (b0 % 4 * 16 + b1 / 16) 'A',
      b64Alphabet.getD (b1 % 16 * 4) 'A', '=']
  | [b0] => [b64Alphabet.getD (b0 / 4) 'A', b64Alphabet.getD (b0 % 4 * 16) 'A', '=', '=']
  | [] => []

/-- Value of a Base64 digit. -/
def b64Digit (c : Char) : Option Nat :=
  let i := b64Alphabet.indexOf c
  if i < 64 then some i else none

/-- Decoding of the quanta of an input from which line breaks have been removed: full quanta of
four digits, the last one possibly `xx==` or `xxx=`, nothing after the padding; the unused low bits
of a padded quantum are not checked. -/
def b64Quanta : List Char → Option (List Nat)
  | [] => some []
  | c0 :: c1 :: c2 :: c3 :: rest =>
    match b64Digit c0, b64Digit c1 with
    | some d0, some d1 =>
      if c2 = '=' then
        if c3 = '=' ∧ rest = [] then some [d0 * 4 + d1 / 16] else none
      else
        match b64Digit c2 with
        | some d2 =>
          if c3 = '=' then
            if rest = [] then some [d0 * 4 + d1 / 16, d1 % 16 * 16 + d2 / 4] else none
          else
            match b64Digit c3, b64Quanta rest with
            | some d3, some out =>
              some ((d0 * 4 + d1 / 16) :: (d1 % 16 * 16 + d2 / 4) :: (d2 % 4 * 64 + d3) :: out)
            | _, _ => none
        | none => none
    | _, _ => none
  | _ => none

/-- The method `base64.StdEncoding.Decode`: carriage returns and line feeds are skipped, and any
other defect is an error (`none`). -/
def b64Decode (s : String) : Option (List Nat) :=
  b64Quanta (s.toList.filter fun c => c != '\n' && c != '\r')

/-- JSON number for a Go integer. -/
def jInt (n : Int) : JValue := .int (decide (n < 0)) n.natAbs

/-- Encoding of a `Player`. The tag option `omitEmpty` is not an option the encoder knows, so
every field is always written. -/
def marshalPlayer (p : Player) : JValue :=
  .obj [("id", .str (coerceUTF8 p.ID)), ("joinTime", jInt p.JoinTime),
    ("currentGame", .str (coerceUTF8 p.CurrentGame)), ("isAdmin", .bool p.IsAdmin),
    ("finished", .bool p.Finished)]

/-- The function `json.Marshal` on a `LiveGame`: a nil slice is written `null`, a byte slice as
a Base64 string, a string coerced to valid UTF-8. It has no failure for these field types. -/
def Marshal (g : LiveGame) : Except String JValue :=
  .ok (.obj [("playerCount", jInt g.PlayerCount),
    ("players", match g.Players with
      | none => .null
      | some ps => .arr (ps.map marshalPlayer)),
    ("gameID", .str (coerceUTF8 g.GameID)),
    ("gameData", match g.GameData with
      | none => .null
      | some bs => .str (String.mk (b64Encode bs))),
    ("title", .str (coerceUTF8 g.Title))])

/-! ## Memory: slices and their backing arrays

`FetchGames` decodes every message into one and the same variable `game`, and `json.Unmarshal`
fills a slice in place when its backing array has room. The copies of `game` kept in the map share
those arrays, so slices are modelled as headers into a heap of arrays. -/

/-- A non-nil slice header: the backing array (its position in the heap) and the length. The
capacity is the length of the backing array. -/
structure SliceRef where
  arr : Nat
  len : Nat
  deriving DecidableEq, Repr

/-- The backing arrays allocated so far, by element type. -/
structure Heap where
  players : List (List Player)
  bytes : List (List Nat)
  deriving DecidableEq, Repr

/-- A `LiveGame` value in memory: the two slice fields are headers. -/
structure GameVar where
  PlayerCount : Int
  Players : Option SliceRef
  GameID : GoString
  GameData : Option SliceRef
  Title : GoString
  deriving DecidableEq, Repr

/-- The zero value, `var game LiveGame`. -/
def GameVar.zero : GameVar := ⟨0, none, [], none, []⟩

/-- The builtin `cap`. -/
def capOf {α : Type} (arrays : List (List α)) (s : Option SliceRef) : Nat :=
  match s with
  | none => 0
  | some r => (arrays.getD r.arr []).length

/-- The builtin `len` on a header. -/
def lenOf (s : Option SliceRef) : Nat :=
  match s with
  | none => 0
  | some r => r.len

/-- The elements a slice header denotes. -/
def view {α : Type} (arrays : List (List α)) (s : Option SliceRef) : Option (List α) :=
  s.map fun r => (arrays.getD r.arr []).take r.len

/-- The value a `GameVar` denotes in a heap. -/
def GameVar.read (h : Heap) (g : GameVar) : LiveGame :=
  { PlayerCount := g.PlayerCount, Players := view h.players g.Players, GameID := g.GameID,
    GameData := view h.bytes g.GameData, Title := g.Title }

/-- Capacity policy of the JSON decoder when a slice is full. It differs between releases of the
library, so it is an input of the model. -/
structure Growth where
  players : Nat → Nat
  bytes : Nat → Nat

/-- The policy of `encoding/json` up to Go 1.20: half as much again, at least 4. -/
def growCap (c : Nat) : Nat := max 4 (c + c / 2)

/-- The decoder of Go 1.20. -/
def go120 : Growth := ⟨growCap, growCap⟩

/-! ## `json.Unmarshal` into a `LiveGame` -/

/-- Comparison of one character of a field name with one character of a key, as the
case-insensitive match of `encoding/json` does it: ASCII letters match in either case, and the
long s (U+017F) matches `s`, the Kelvin sign (U+212A) matches `k`. -/
def foldEq (n k : Char) : Bool :=
  (k.toNat < 128 && (k.toNat ||| 32) == (n.toNat ||| 32)) ||
    (k.toNat == 383 && (n.toNat ||| 32) == 115) || (k.toNat == 8490 && (n.toNat ||| 32) == 107)

/-- Whether the object key `key` selects the struct field with JSON name `name` (a name made of
ASCII letters): exact match or match under case folding. -/
def keyMatches (name key : String) : Bool :=
  name.length == key.length && (List.zipWith foldEq name.toList key.toList).all id

/-- A JSON value stored into an `int` or `int64` (64 bits): `null` leaves the target as it is, an
integer literal in range is stored, anything else is a type error and leaves the target as it is.
The second component tells whether an error was recorded. -/
def decInt (v : JValue) (old : Int) : Int × Bool :=
  match v with
  | .null => (old, true)
  | .int neg mag =>
    let n : Int := if neg then -(mag : Int) else (mag : Int)
    if -9223372036854775808 ≤ n ∧ n ≤ 9223372036854775807 then (n, true) else (old, false)
  | _ => (old, false)

/-- A JSON value stored into a `bool`. -/
def decBool (v : JValue) (old : Bool) : Bool × Bool :=
  match v with
  | .null => (old, true)
  | .bool b => (b, true)
  | _ => (old, false)

/-- A JSON value stored into a `string`. -/
def decString (v : JValue) (old : GoString) : GoString × Bool :=
  match v with
  | .null => (old, true)
  | .str s => (utf8 s, true)
  | _ => (old, false)

/-- A JSON value stored into a `byte` (element of `GameData` written as a JSON array): an
unsigned literal up to 255. -/
def decByte (v : JValue) (old : Nat) : Nat × Bool :=
  match v with
  | .null => (old, true)
  | .int neg mag => if neg = false ∧ mag ≤ 255 then (mag, true) else (old, false)
  | _ => (old, false)

/-- One member of a JSON object stored into a `Player`. Unknown keys are skipped. -/
def storePlayerField (acc : Player × Bool) (kv : String × JValue) : Player × Bool :=
  let p := acc.1
  if keyMatches "id" kv.1 then
    let r := decString kv.2 p.ID
    ({ p with ID := r.1 }, acc.2 && r.2)
  else if keyMatches "joinTime" kv.1 then
    let r := decInt kv.2 p.JoinTime
    ({ p with JoinTime := r.1 }, acc.2 && r.2)
  else if keyMatches "currentGame" kv.1 then
    let r := decString kv.2 p.CurrentGame
    ({ p with CurrentGame := r.1 }, acc.2 && r.2)
  else if keyMatches "isAdmin" kv.1 then
    let r := decBool kv.2 p.IsAdmin
    ({ p with IsAdmin := r.1 }, acc.2 && r.2)
  else if keyMatches "finished" kv.1 then
    let r := decBool kv.2 p.Finished
    ({ p with Finished := r.1 }, acc.2 && r.2)
  else acc

/-- A JSON value stored into a `Player` that already holds `old`: an object is merged member by
member into `old`, `null` leaves it, anything else is a type error. -/
def decPlayer (v : JValue) (old : Player) : Player × Bool :=
  match v with
  | .null => (old, true)
  | .obj members => members.foldl storePlayerField (old, true)
  | _ => (old, false)

/-- State of the decoder while it reads a JSON array into a slice: the arrays, the slice header,
the number of elements read, whether all went without error. -/
structure ArrState (α : Type) where
  arrays : List (List α)
  slice : Option SliceRef
  i : Nat
  ok : Bool

/-- One element of a JSON array read into a slice. When the slice is full, a new backing array is
allocated and the elements copied; the length is raised to cover position `i`; then the element
is decoded in place, over whatever the array holds at `i`. The new capacity is the one of the
policy `grow`, and at least `i + 1` (every policy of the library makes room for the element). -/
def arrayStep {α : Type} (grow : Nat → Nat) (zero : α) (dec : JValue → α → α × Bool)
    (st : ArrState α) (item : JValue) : ArrState α :=
  let c := capOf st.arrays st.slice
  let l := lenOf st.slice
  let grown : List (List α) × SliceRef :=
    match st.slice with
    | some r =>
      if c ≤ st.i then
        (st.arrays ++ [(st.arrays.getD r.arr []).take l ++
          List.replicate (max (grow c) (st.i + 1) - l) zero], ⟨st.arrays.length, l⟩)
      else (st.arrays, r)
    | none =>
      (st.arrays ++ [List.replicate (max (grow c) (st.i + 1)) zero], ⟨st.arrays.length, 0⟩)
  let arrays := grown.1
  let r : SliceRef := if grown.2.len ≤ st.i then ⟨grown.2.arr, st.i + 1⟩ else grown.2
  let a := arrays.getD r.arr []
  let x := dec item (a.getD st.i zero)
  ⟨arrays.set r.arr (a.set st.i x.1), some r, st.i + 1, st.ok && x.2⟩

/-- A JSON array read into a slice: the elements one after the other, then the length is cut to
the number of elements read, and an empty array yields a new empty slice. -/
def decodeArray {α : Type} (grow : Nat → Nat) (zero : α) (dec : JValue → α → α × Bool)
    (items : List JValue) (arrays : List (List α)) (slice : Option SliceRef) :
    List (List α) × Option SliceRef × Bool :=
  let st := items.foldl (arrayStep grow zero dec) ⟨arrays, slice, 0, true⟩
  let cut : Option SliceRef :=
    match st.slice with
    | some r => if st.i < r.len then some ⟨r.arr, st.i⟩ else some r
    | none => none
  if st.i = 0 then (st.arrays ++ [[]], some ⟨st.arrays.length, 0⟩, st.ok)
  else (st.arrays, cut, st.ok)

/-- State of the decoder while it reads a JSON object into the variable `game`. -/
structure DecState where
  heap : Heap
  game : GameVar
  ok : Bool
  deriving DecidableEq, Repr

/-- A JSON value stored into the field `Players`. -/
def decPlayers (rt : Growth) (v : JValue) (st : DecState) : DecState :=
  match v with
  | .null => { st with game := { st.game with Players := none } }
  | .arr items =>
    let r := decodeArray rt.players Player.zero decPlayer items st.heap.players st.game.Players
    { heap := { st.heap with players := r.1 }, game := { st.game with Players := r.2.1 },
      ok := st.ok && r.2.2 }
  | _ => { st with ok := false }

/-- A JSON value stored into the field `GameData`: a string is Base64 and is decoded into a new
buffer of the estimated size, an array of numbers is read in place like any slice. -/
def decGameData (rt : Growth) (v : JValue) (st : DecState) : DecState :=
  match v with
  | .null => { st with game := { st.game with GameData := none } }
  | .str s =>
    match b64Decode s with
    | some bs =>
      { st with
        heap := { st.heap with
          bytes := st.heap.bytes ++
            [bs ++ List.replicate ((utf8 s).length / 4 * 3 - bs.length) 0] },
        game := { st.game with GameData := some ⟨st.heap.bytes.length, bs.length⟩ } }
    | none => { st with ok := false }
  | .arr items =>
    let r := decodeArray rt.bytes 0 decByte items st.heap.bytes st.game.GameData
    { heap := { st.heap with bytes := r.1 }, game := { st.game with GameData := r.2.1 },
      ok := st.ok && r.2.2 }
  | _ => { st with ok := false }

/-- One member of a JSON object stored into `game`. Unknown keys are skipped. -/
def storeField (rt : Growth) (st : DecState) (kv : String × JValue) : DecState :=
  if keyMatches "playerCount" kv.1 then
    let r := decInt kv.2 st.game.PlayerCount
    { st with game := { st.game with PlayerCount := r.1 }, ok := st.ok && r.2 }
  else if keyMatches "players" kv.1 then decPlayers rt kv.2 st
  else if keyMatches "gameID" kv.1 then
    let r := decString kv.2 st.game.GameID
    { st with game := { st.game with GameID := r.1 }, ok := st.ok && r.2 }
  else if keyMatches "gameData" kv.1 then decGameData rt kv.2 st
  else if keyMatches "title" kv.1 then
    let r := decString kv.2 st.game.Title
    { st with game := { st.game with Title := r.1 }, ok := st.ok && r.2 }
  else st

/-- The call `json.Unmarshal(payload, &game)`. Bytes that are not valid JSON are rejected before
anything is stored. Otherwise the value is stored as far as it fits: the members of an object one
by one, in the order of the text, a member that does not fit its field being skipped and reported;
`null` stores nothing and is no error; any other value is a type error. The component `ok` is
`false` exactly when the call returns an error. -/
def Unmarshal (rt : Growth) (payload : Payload) (heap : Heap) (game : GameVar) : DecState :=
  match payload with
  | none => ⟨heap, game, false⟩
  | some .null => ⟨heap, game, true⟩
  | some (.obj members) => members.foldl (storeField rt) ⟨heap, game, true⟩
  | some _ => ⟨heap, game, false⟩

/-! ## The Go map `map[string]LiveGame` -/

/-- The assignment `m[k] = v`. The order of the list carries no meaning. -/
def mapSet {γ : Type} : List (GoString × γ) → GoString → γ → List (GoString × γ)
  | [], k, v => [(k, v)]
  | (k0, v0) :: rest, k, v => if k0 = k then (k, v) :: rest else (k0, v0) :: mapSet rest k v

/-- The lookup `m[k]`, `none` when `k` is not a key. -/
def mapGet {γ : Type} : List (GoString × γ) → GoString → Option γ
  | [], _ => none
  | (k0, v0) :: rest, k => if k0 = k then some v0 else mapGet rest k

/-! ## The node and its collaborators (`main.go`) -/

def contentTopicGames : String := "/wsudoku/1/games/proto"

def pubSubTopic : String := "/waku/2/wsudoku/"

/-- The fields of `pb.WakuMessage` the program uses. -/
structure WakuMessage where
  ContentTopic : String
  Timestamp : Int
  Payload : Payload

/-- The struct `store.Query`. -/
structure Query where
  ContentTopics : List String
  Topic : String
  deriving DecidableEq, Repr

/-- Severity of a log entry. -/
inductive Level where
  | info
  | error
  deriving DecidableEq, Repr

/-- The process state the two operations act on, with the collaborators as functions:
`storeAnswer n q` is what the store answers to the query `q` when `n` queries were issued before;
`relayAnswer m t` is the error of publishing `m` on topic `t`, `none` for success. The lists record
the calls made, in order. -/
structure World where
  player : Player
  peers : Nat
  storeAnswer : Nat → Query → Except String (List WakuMessage)
  relayAnswer : WakuMessage → String → Option String
  queries : List Query
  handed : List (WakuMessage × String)
  published : List WakuMessage
  unmarshals : Nat
  printed : Nat
  log : List (Level × String)

/-! ## `FetchGames` -/

/-- The variables of the loop of `FetchGames`. -/
structure Loop where
  heap : Heap
  game : GameVar
  games : List (GoString × GameVar)
  unmarshals : Nat
  printed : Nat
  deriving DecidableEq, Repr

/-- One turn of the loop: decode into `game`, print when the decoder reports an error, then store
`game` under its title. -/
def fetchStep (rt : Growth) (st : Loop) (msg : WakuMessage) : Loop :=
  let r := Unmarshal rt msg.Payload st.heap st.game
  { heap := r.heap, game := r.game, games := mapSet st.games r.game.Title r.game,
    unmarshals := st.unmarshals + 1,
    printed := if r.ok then st.printed else st.printed + 1 }

/-- The loop over `res.Messages`. -/
def fetchLoop (rt : Growth) (msgs : List WakuMessage) : Loop :=
  msgs.foldl (fetchStep rt) ⟨⟨[], []⟩, GameVar.zero, [], 0, 0⟩

/-- The values of the map as the caller reads them after the loop. -/
def readGames (st : Loop) : List (GoString × LiveGame) :=
  st.games.map fun kv => (kv.1, kv.2.read st.heap)

/-- What `FetchGames` returns: the map (`none` is the nil map) and the error. -/
structure Fetched where
  games : Option (List (GoString × LiveGame))
  err : Option String
  deriving DecidableEq, Repr

/-- The function `FetchGames`. -/
def FetchGames (rt : Growth) (w : World) : Fetched × World :=
  let query : Query := { ContentTopics := [contentTopicGames], Topic := pubSubTopic }
  let w1 := { w with queries := w.queries ++ [query] }
  match w.storeAnswer w.queries.length query with
  | .error err => (⟨none, some err⟩, w1)
  | .ok msgs =>
    let st := fetchLoop rt msgs
    (⟨some (readGames st), none⟩,
      { w1 with unmarshals := w1.unmarshals + st.unmarshals, printed := w1.printed + st.printed })

/-! ## `CreateNewGame` -/

/-- The function `CreateNewGame`. Inputs read from the environment: `draw` is the number
`rand.New(s2).Uint32()`, `now` the reading `time.Now().UnixMicro()` inside `NewLiveGame`, `epoch`
the reading `utils.GetUnixEpoch()`. -/
def CreateNewGame (w : World) (draw : Nat) (now epoch : Int) : World :=
  if w.peers ≤ 0 then
    { w with log := w.log ++ [(Level.error,
        "Cannot create a game as no Peers connected. Wait for peers to be connected")] }
  else
    let title := utf8 ("Sudoku-" ++ toString draw)
    match Marshal (NewLiveGame title w.player now) with
    | .error _ => { w with log := w.log ++ [(Level.error, "Filed to marshal json due to error ")] }
    | .ok payload =>
      let msg : WakuMessage :=
        { ContentTopic := contentTopicGames, Timestamp := epoch, Payload := some payload }
      let w1 := { w with handed := w.handed ++ [(msg, pubSubTopic)] }
      match w.relayAnswer msg pubSubTopic with
      | some _ => { w1 with log := w1.log ++ [(Level.error, "Failed to publish new game")] }
      | none =>
        { w1 with
          published := w1.published ++ [msg],
          log := w1.log ++ [(Level.info, "Published New game successfully")] }

/-! ## Concrete inputs and the predicates of the statements -/

/-- A stored message of the games topic with the given payload. -/
def gameMsg (p : Payload) : WakuMessage :=
  { ContentTopic := contentTopicGames, Timestamp := 0, Payload := p }

/-- A stored message of the games topic published at time `ts`. -/
def gameMsgAt (ts : Int) (p : Payload) : WakuMessage :=
  { ContentTopic := contentTopicGames, Timestamp := ts, Payload := p }

/-- A node with `peers` connected peers whose store answers every query with `msgs` and whose
relay accepts every message; nothing has happened yet. -/
def quietWorld (peers : Nat) (msgs : List WakuMessage) : World :=
  { player := { Player.zero with ID := utf8 "16Uiu2HAm" }, peers := peers,
    storeAnswer := fun _ _ => .ok msgs, relayAnswer := fun _ _ => none,
    queries := [], handed := [], published := [], unmarshals := 0, printed := 0, log := [] }

/-- A node whose store fails every query with the error `e`. -/
def brokenStoreWorld (e : String) : World :=
  { quietWorld 1 [] with storeAnswer := fun _ _ => .error e }

/-- The title, id and player count of a record. -/
def core (g : LiveGame) : GoString × GoString × Int := (g.Title, g.GameID, g.PlayerCount)

/-- The title, id and player count of the variable `game`. -/
def GameVar.core (g : GameVar) : GoString × GoString × Int := (g.Title, g.GameID, g.PlayerCount)

/-- The title, id and player count a payload yields when decoded into a fresh variable. -/
def freshCore (rt : Growth) (p : Payload) : GoString × GoString × Int :=
  (Unmarshal rt p ⟨[], []⟩ GameVar.zero).game.core

/-- The payload `p` fixes title, id and player count: decoding it stores the same three values
whatever the variable and the heap held before. -/
def Fixes (rt : Growth) (p : Payload) : Prop :=
  ∀ (heap : Heap) (game : GameVar), (Unmarshal rt p heap game).game.core = freshCore rt p

/-- A payload that gives title, id and player count: the JSON text
`{"title": t, "gameID": g, "playerCount": n}`. -/
def plainRecord (t g : String) (n : Nat) : Payload :=
  some (.obj [("title", .str t), ("gameID", .str g), ("playerCount", .int false n)])

/-- Encoding a record and decoding the payload into a fresh variable, as `CreateNewGame` does on
one side and the first turn of the loop of `FetchGames` on the other; `none` when either call
returns an error. -/
def roundTrip (rt : Growth) (g : LiveGame) : Option LiveGame :=
  match Marshal g with
  | .ok v =>
    let r := Unmarshal rt (some v) ⟨[], []⟩ GameVar.zero
    if r.ok then some (r.game.read r.heap) else none
  | .error _ => none

/-! ## Checks of the library models against known values -/

/-- The digest of `abc` is the test vector of the standard. -/
theorem Sum256_abc : Sha256.Sum256 (utf8 "abc") =
    [0xba, 0x78, 0x16, 0xbf, 0x8f, 0x01, 0xcf, 0xea, 0x41, 0x41, 0x40, 0xde, 0x5d, 0xae, 0x22, 0x23,
     0xb0, 0x03, 0x61, 0xa3, 0x96, 0x17, 0x7a, 0x9c, 0xb4, 0x10, 0xff, 0x61, 0xf2, 0x00, 0x15,
     0xad] := by
  set_option maxRecDepth 100000 in decide

/-- Valid UTF-8 survives the coercion of the JSON encoder. -/
theorem coerceUTF8_valid_sample : utf8 (coerceUTF8 (utf8 "Sudoku-42 é€")) = utf8 "Sudoku-42 é€" := by
  decide

/-- Base64 decoding of a padded text with a line break. -/
theorem b64Decode_sample : b64Decode "aGVsbG8gd2\n9ybGQhIQ==" = some (utf8 "hello world!!") := by
  decide

/-! ## The digest has 32 bytes -/

theorem Sha256.round_length (s : List Nat) (kw : Nat × Nat) :
    (Sha256.round s kw).length = s.length := by
  unfold Sha256.round
  split <;> rfl

theorem Sha256.foldl_round_length (kws : List (Nat × Nat)) (s : List Nat) :
    (kws.foldl Sha256.round s).length = s.length := by
  induction kws generalizing s with
  | nil => rfl
  | cons kw rest ih => rw [List.foldl_cons, ih, Sha256.round_length]

theorem Sha256.compress_length (h block : List Nat) :
    (Sha256.compress h block).length = h.length := by
  simp [Sha256.compress, Sha256.foldl_round_length]

theorem Sha256.foldl_compress_length (bs : List (List Nat)) (h : List Nat) :
    (bs.foldl Sha256.compress h).length = h.length := by
  induction bs generalizing h with
  | nil => rfl
  | cons b rest ih => rw [List.foldl_cons, ih, Sha256.compress_length]

theorem Sha256.flatMap_wordBytes_length (ws : List Nat) :
    (ws.flatMap Sha256.wordBytes).length = 4 * ws.length := by
  induction ws with
  | nil => rfl
  | cons w rest ih =>
    simp only [List.flatMap_cons, List.length_append, ih, List.length_cons]
    simp [Sha256.wordBytes]
    omega

/-- The function `Sum256` returns 32 bytes on every input. -/
theorem Sha256.Sum256_length (msg : List Nat) : (Sha256.Sum256 msg).length = 32 := by
  unfold Sha256.Sum256
  simp only [Sha256.flatMap_wordBytes_length, Sha256.foldl_compress_length]
  rfl

/-! ## Lemmas on the map -/

theorem mapGet_mapSet {γ : Type} (m : List (GoString × γ)) (k k1 : GoString) (v : γ) :
    mapGet (mapSet m k v) k1 = if k = k1 then some v else mapGet m k1 := by
  induction m with
  | nil => simp [mapSet, mapGet]
  | cons hd tl ih =>
    obtain ⟨k0, v0⟩ := hd
    by_cases h0 : k0 = k
    · subst h0
      by_cases h1 : k0 = k1 <;> simp [mapSet, mapGet, h1]
    · by_cases h1 : k0 = k1
      · subst h1
        have h2 : ¬ k = k0 := fun h => h0 h.symm
        simp [mapSet, mapGet, h0, h2]
      · simp [mapSet, mapGet, h0, h1, ih]

theorem mapGet_map {γ δ : Type} (f : γ → δ) (m : List (GoString × γ)) (k : GoString) :
    mapGet (m.map fun kv => (kv.1, f kv.2)) k = (mapGet m k).map f := by
  induction m with
  | nil => rfl
  | cons hd tl ih =>
    obtain ⟨k0, v0⟩ := hd
    by_cases h0 : k0 = k <;> simp [mapGet, h0, ih]

/-- Lookup in the map the caller reads, in terms of the map of the loop. -/
theorem mapGet_readGames (st : Loop) (k : GoString) :
    mapGet (readGames st) k = (mapGet st.games k).map fun g => g.read st.heap := by
  unfold readGames
  exact mapGet_map (fun g => GameVar.read st.heap g) st.games k

/-! ## Lemmas on the decoder -/

/-- A Go `int64` written by the encoder is read back by the decoder. -/
theorem decInt_jInt (n old : Int) (h1 : -9223372036854775808 ≤ n)
    (h2 : n ≤ 9223372036854775807) : decInt (jInt n) old = (n, true) := by
  unfold jInt decInt
  by_cases hn : n < 0
  · have hd : decide (n < 0) = true := decide_eq_true hn
    have hv : -((n.natAbs : Nat) : Int) = n := by omega
    simp only [hd, if_true, hv]
    rw [if_pos ⟨h1, h2⟩]
  · have hd : decide (n < 0) = false := decide_eq_false hn
    have hv : ((n.natAbs : Nat) : Int) = n := by omega
    simp only [hd, Bool.false_eq_true, if_false, hv]
    rw [if_pos ⟨h1, h2⟩]

/-- A one-element JSON array read into the nil slice of an empty heap: one array is allocated,
whatever the capacity policy, and the slice is its first element. -/
theorem decodeArray_single {α : Type} (grow : Nat → Nat) (zero : α)
    (dec : JValue → α → α × Bool) (item : JValue) :
    ∃ arr, decodeArray grow zero dec [item] [] none = ([arr], some ⟨0, 1⟩, (dec item zero).2) ∧
      arr.take 1 = [(dec item zero).1] := by
  obtain ⟨n, hn⟩ : ∃ n, max (grow 0) 1 = n + 1 := ⟨max (grow 0) 1 - 1, by omega⟩
  refine ⟨(dec item zero).1 :: List.replicate n zero, ?_, rfl⟩
  simp [decodeArray, arrayStep, capOf, lenOf, hn, List.replicate_succ]

/-- The keys the encoder writes for a `Player` select their own field and no earlier one. -/
theorem playerKeys :
    keyMatches "id" "id" = true ∧ keyMatches "id" "joinTime" = false ∧
    keyMatches "id" "currentGame" = false ∧ keyMatches "id" "isAdmin" = false ∧
    keyMatches "id" "finished" = false ∧
    keyMatches "joinTime" "joinTime" = true ∧ keyMatches "joinTime" "currentGame" = false ∧
    keyMatches "joinTime" "isAdmin" = false ∧ keyMatches "joinTime" "finished" = false ∧
    keyMatches "currentGame" "currentGame" = true ∧ keyMatches "currentGame" "isAdmin" = false ∧
    keyMatches "currentGame" "finished" = false ∧
    keyMatches "isAdmin" "isAdmin" = true ∧ keyMatches "isAdmin" "finished" = false ∧
    keyMatches "finished" "finished" = true := by decide

/-- The keys the encoder writes for a `LiveGame` select their own field and no earlier one. -/
theorem gameKeys :
    keyMatches "playerCount" "playerCount" = true ∧
    keyMatches "playerCount" "players" = false ∧ keyMatches "players" "players" = true ∧
    keyMatches "playerCount" "gameID" = false ∧ keyMatches "players" "gameID" = false ∧
    keyMatches "gameID" "gameID" = true ∧
    keyMatches "playerCount" "gameData" = false ∧ keyMatches "players" "gameData" = false ∧
    keyMatches "gameID" "gameData" = false ∧ keyMatches "gameData" "gameData" = true ∧
    keyMatches "playerCount" "title" = false ∧ keyMatches "players" "title" = false ∧
    keyMatches "gameID" "title" = false ∧ keyMatches "gameData" "title" = false ∧
    keyMatches "title" "title" = true := by decide

/-- A `Player` read back from its own encoding: the strings come back coerced to UTF-8, the
other fields unchanged. -/
theorem decPlayer_marshalPlayer (p old : Player)
    (h1 : -9223372036854775808 ≤ p.JoinTime) (h2 : p.JoinTime ≤ 9223372036854775807) :
    decPlayer (marshalPlayer p) old =
      ({ p with ID := utf8 (coerceUTF8 p.ID), CurrentGame := utf8 (coerceUTF8 p.CurrentGame) },
        true) := by
  obtain ⟨a1, a2, a3, a4, a5, a6, a7, a8, a9, a10, a11, a12, a13, a14, a15⟩ := playerKeys
  simp [decPlayer, marshalPlayer, storePlayerField, decString, decBool, decInt_jInt _ _ h1 h2,
    a1, a2, a3, a4, a5, a6, a7, a8, a9, a10, a11, a12, a13, a14, a15]

/-- What comes back from the payload of a session made by `NewLiveGame`, for a clock reading that
is an `int64`: the session with title, player ID, id and current game coerced to UTF-8. -/
theorem roundTrip_NewLiveGame (rt : Growth) (title : GoString) (player : Player) (now : Int)
    (h1 : -9223372036854775808 ≤ now) (h2 : now ≤ 9223372036854775807) :
    roundTrip rt (NewLiveGame title player now) =
      some { PlayerCount := 1,
             Players := some [{ ID := utf8 (coerceUTF8 player.ID), JoinTime := now,
                                CurrentGame := utf8 (coerceUTF8 (Sha256.Sum256 title)),
                                IsAdmin := true, Finished := player.Finished }],
             GameID := utf8 (coerceUTF8 (Sha256.Sum256 title)),
             GameData := none,
             Title := utf8 (coerceUTF8 title) } := by
  obtain ⟨a1, a2, a3, a4, a5, a6, a7, a8, a9, a10, a11, a12, a13, a14, a15⟩ := gameKeys
  obtain ⟨arr, harr, htake⟩ := decodeArray_single rt.players Player.zero decPlayer
    (marshalPlayer ⟨player.ID, now, Sha256.Sum256 title, true, player.Finished⟩)
  rw [decPlayer_marshalPlayer _ _ h1 h2] at harr htake
  simp [roundTrip, NewLiveGame, Marshal, Unmarshal, storeField, decPlayers, decGameData,
    decString, harr, htake, GameVar.read, view, GameVar.zero,
    decInt_jInt 1 0 (by norm_num) (by norm_num),
    a1, a2, a3, a4, a5, a6, a7, a8, a9, a10, a11, a12, a13, a14, a15]

/-! ## `NewLiveGame` -/

/-- C1: the session id made by `NewLiveGame` is the SHA-256 digest of the bytes of the title, and
it is the same for any two players and any two clock readings. It holds for every title, the
non-empty ones in particular. -/
theorem NewLiveGame_id_is_digest_of_title (title : GoString) (p1 p2 : Player) (t1 t2 : Int) :
    (NewLiveGame title p1 t1).GameID = Sha256.Sum256 title ∧
    (NewLiveGame title p2 t2).GameID = Sha256.Sum256 title ∧
    (NewLiveGame title p1 t1).GameID = (NewLiveGame title p2 t2).GameID :=
  ⟨rfl, rfl, rfl⟩

/-- C2: the session made by `NewLiveGame` has exactly one participant; that participant has the
ID of the player given, is admin and has the session id as current game; the title is the title
given; `PlayerCount` is 1 and so is the length of `Players`. -/
theorem NewLiveGame_single_admin (title : GoString) (player : Player) (now : Int) :
    (∃ p, (NewLiveGame title player now).Players = some [p] ∧ p.ID = player.ID ∧
      p.IsAdmin = true ∧ p.CurrentGame = (NewLiveGame title player now).GameID) ∧
    (NewLiveGame title player now).Title = title ∧
    (NewLiveGame title player now).PlayerCount = 1 ∧
    ((len (NewLiveGame title player now).Players : Nat) : Int) =
      (NewLiveGame title player now).PlayerCount :=
  ⟨⟨_, rfl, rfl, rfl, rfl⟩, rfl, rfl, rfl⟩

/-! ## `CreateNewGame` -/

/-- C3: with zero connected peers `CreateNewGame` only writes a log entry: nothing is handed to the
relay and the published messages are unchanged. Whenever a message is handed to the relay (or
published), the peer count is at least one; and with at least one peer a message is handed over. -/
theorem CreateNewGame_needs_a_peer (w : World) (draw : Nat) (now epoch : Int) :
    (w.peers = 0 →
      CreateNewGame w draw now epoch =
        { w with log := w.log ++ [(Level.error,
            "Cannot create a game as no Peers connected. Wait for peers to be connected")] }) ∧
    ((CreateNewGame w draw now epoch).handed ≠ w.handed → 1 ≤ w.peers) ∧
    ((CreateNewGame w draw now epoch).published ≠ w.published → 1 ≤ w.peers) ∧
    (1 ≤ w.peers → ∃ msg, (CreateNewGame w draw now epoch).handed = w.handed ++ [(msg, pubSubTopic)] ∧
      Marshal (NewLiveGame (utf8 ("Sudoku-" ++ toString draw)) w.player now) =
        .ok (msg.Payload.getD .null)) := by
  refine ⟨?_, ?_, ?_, ?_⟩
  · intro h
    simp [CreateNewGame, h]
  · intro h
    by_contra hp
    have h0 : w.peers ≤ 0 := by omega
    exact h (by simp [CreateNewGame, h0])
  · intro h
    by_contra hp
    have h0 : w.peers ≤ 0 := by omega
    exact h (by simp [CreateNewGame, h0])
  · intro h
    have h0 : ¬ w.peers ≤ 0 := by omega
    simp only [CreateNewGame, h0, if_false, Marshal]
    cases hr : w.relayAnswer _ pubSubTopic <;> exact ⟨_, rfl, rfl⟩

/-- Witness for C3: a node without peers. -/
theorem CreateNewGame_needs_a_peer_witness :
    (quietWorld 0 []).peers = 0 ∧
    (CreateNewGame (quietWorld 0 []) 42 1000 1).handed = [] ∧
    (CreateNewGame (quietWorld 0 []) 42 1000 1).published = [] ∧
    (CreateNewGame (quietWorld 0 []) 42 1000 1).log.length = 1 :=
  ⟨rfl,
    by rw [(CreateNewGame_needs_a_peer (quietWorld 0 []) 42 1000 1).1 rfl]; rfl,
    by rw [(CreateNewGame_needs_a_peer (quietWorld 0 []) 42 1000 1).1 rfl]; rfl,
    by rw [(CreateNewGame_needs_a_peer (quietWorld 0 []) 42 1000 1).1 rfl]; rfl⟩

/-! ## `FetchGames`: the query -/

/-- C4: `FetchGames` issues exactly one query. When the store answers it with an error `e`,
`FetchGames` returns the nil map together with that same `e` and calls the decoder not once; when
the store answers with messages, the error returned is nil and the map is not. -/
theorem FetchGames_query_error (rt : Growth) (w : World) :
    (FetchGames rt w).2.queries = w.queries ++ [⟨[contentTopicGames], pubSubTopic⟩] ∧
    (∀ e, w.storeAnswer w.queries.length ⟨[contentTopicGames], pubSubTopic⟩ = .error e →
      (FetchGames rt w).1 = ⟨none, some e⟩ ∧ (FetchGames rt w).2.unmarshals = w.unmarshals ∧
      (FetchGames rt w).2.printed = w.printed) ∧
    (∀ msgs, w.storeAnswer w.queries.length ⟨[contentTopicGames], pubSubTopic⟩ = .ok msgs →
      (FetchGames rt w).1.err = none ∧ (FetchGames rt w).1.games ≠ none ∧
      (FetchGames rt w).2.unmarshals = w.unmarshals + msgs.length) := by
  have hlen : ∀ (msgs : List WakuMessage) (st : Loop),
      (msgs.foldl (fetchStep rt) st).unmarshals = st.unmarshals + msgs.length := by
    intro msgs
    induction msgs with
    | nil => intro st; rfl
    | cons m ms ih =>
      intro st
      rw [List.foldl_cons, ih]
      simp only [fetchStep, List.length_cons]
      omega
  refine ⟨?_, ?_, ?_⟩
  · cases h : w.storeAnswer w.queries.length ⟨[contentTopicGames], pubSubTopic⟩ <;>
      simp [FetchGames, h]
  · intro e h
    simp [FetchGames, h]
  · intro msgs h
    have := hlen msgs ⟨⟨[], []⟩, GameVar.zero, [], 0, 0⟩
    simp [FetchGames, h, fetchLoop, this]

/-- Witness for C4: a store that fails with `timeout`. -/
theorem FetchGames_query_error_witness :
    (brokenStoreWorld "timeout").storeAnswer (brokenStoreWorld "timeout").queries.length
      ⟨[contentTopicGames], pubSubTopic⟩ = .error "timeout" ∧
    (FetchGames go120 (brokenStoreWorld "timeout")).1 = ⟨none, some "timeout"⟩ ∧
    (FetchGames go120 (brokenStoreWorld "timeout")).2.queries.length = 1 :=
  ⟨rfl, ((FetchGames_query_error go120 (brokenStoreWorld "timeout")).2.1 "timeout" rfl).1,
    by rw [(FetchGames_query_error go120 (brokenStoreWorld "timeout")).1]; rfl⟩

/-- C9, as the code has it: `NewLiveGame` has no failure and validates nothing. For every title,
the empty one included, it returns a session with that title, one participant, and the 32-byte
digest of the title as id. -/
theorem NewLiveGame_accepts_every_title (title : GoString) (player : Player) (now : Int) :
    (NewLiveGame title player now).Title = title ∧
    (NewLiveGame title player now).GameID = Sha256.Sum256 title ∧
    (NewLiveGame title player now).GameID.length = 32 ∧
    len (NewLiveGame title player now).Players = 1 :=
  ⟨rfl, rfl, Sha256.Sum256_length title, rfl⟩

/-- C9 fails on the code: for the empty title `NewLiveGame` returns a session, with the digest of
the empty string as id. -/
theorem NewLiveGame_empty_title_yields_session :
    NewLiveGame [] { Player.zero with ID := utf8 "16Uiu2HAm" } 1700000000000000 =
      { PlayerCount := 1,
        Players := some [{
          ID := utf8 "16Uiu2HAm", JoinTime := 1700000000000000,
          CurrentGame :=
            [0xe3, 0xb0, 0xc4, 0x42, 0x98, 0xfc, 0x1c, 0x14, 0x9a, 0xfb, 0xf4, 0xc8, 0x99, 0x6f,
             0xb9, 0x24, 0x27, 0xae, 0x41, 0xe4, 0x64, 0x9b, 0x93, 0x4c, 0xa4, 0x95, 0x99, 0x1b,
             0x78, 0x52, 0xb8, 0x55],
          IsAdmin := true, Finished := false }],
        GameID :=
          [0xe3, 0xb0, 0xc4, 0x42, 0x98, 0xfc, 0x1c, 0x14, 0x9a, 0xfb, 0xf4, 0xc8, 0x99, 0x6f,
           0xb9, 0x24, 0x27, 0xae, 0x41, 0xe4, 0x64, 0x9b, 0x93, 0x4c, 0xa4, 0x95, 0x99, 0x1b,
           0x78, 0x52, 0xb8, 0x55],
        GameData := none, Title := [] } := by
  set_option maxRecDepth 100000 in decide

/-! ## The wire encoding -/

/-- C7 fails on the code: the session `NewLiveGame` makes for the title `Sudoku-1` does not come
back from its own payload, whatever the release of the decoder. The digest starts with the bytes
`e9 35`, which are not UTF-8; the encoder writes U+FFFD for every such byte, so the id decoded is
the coerced text (68 bytes instead of 32), while title and player count come back unchanged. -/
theorem roundTrip_loses_the_id (rt : Growth) :
    roundTrip rt (NewLiveGame (utf8 "Sudoku-1") Player.zero 1700000000000000) ≠
      some (NewLiveGame (utf8 "Sudoku-1") Player.zero 1700000000000000) ∧
    (roundTrip rt (NewLiveGame (utf8 "Sudoku-1") Player.zero 1700000000000000)).map core =
      some (utf8 "Sudoku-1", utf8 (coerceUTF8 (Sha256.Sum256 (utf8 "Sudoku-1"))), 1) ∧
    (Sha256.Sum256 (utf8 "Sudoku-1")).take 2 = [0xe9, 0x35] ∧
    (utf8 (coerceUTF8 (Sha256.Sum256 (utf8 "Sudoku-1")))).length = 68 := by
  rw [roundTrip_NewLiveGame rt _ _ _ (by norm_num) (by norm_num)]
  set_option maxRecDepth 100000 in decide

/-! ## `FetchGames`: the loop -/

/-- C5 fails on the code: a payload that does not decode is stored all the same. A store holding
one payload that is not JSON yields a map with one entry, the zero record under the empty title,
while the store without that payload yields the empty map; and a payload with a member of the
wrong type, coming after a good record, adds an entry made of its title and the values left over
from the record before. -/
theorem FetchGames_stores_malformed (rt : Growth) :
    (FetchGames rt (quietWorld 1 [gameMsg none])).1 = ⟨some [([], LiveGame.zero)], none⟩ ∧
    (FetchGames rt (quietWorld 1 [gameMsg none])).2.printed = 1 ∧
    (FetchGames rt (quietWorld 1 [])).1 = ⟨some [], none⟩ ∧
    (FetchGames rt (quietWorld 1 [gameMsg (plainRecord "A" "g1" 2),
        gameMsg (some (.obj [("title", .str "B"), ("playerCount", .str "two")]))])).1 =
      ⟨some [(utf8 "A", ⟨2, none, utf8 "g1", none, utf8 "A"⟩),
        (utf8 "B", ⟨2, none, utf8 "g1", none, utf8 "B"⟩)], none⟩ ∧
    (FetchGames rt (quietWorld 1 [gameMsg (plainRecord "A" "g1" 2)])).1 =
      ⟨some [(utf8 "A", ⟨2, none, utf8 "g1", none, utf8 "A"⟩)], none⟩ :=
  ⟨rfl, rfl, rfl, rfl, rfl⟩

/-- C10 fails on the code: the decoder writes into the variable of the turn before. After a
record with roster, blob, id and count, the payload that holds only a title is stored with the
roster, the blob, the id and the count of that earlier record, whatever the release of the
decoder. -/
theorem FetchGames_carries_fields_over (rt : Growth) :
    (FetchGames rt (quietWorld 1 [
      gameMsg (some (.obj [("title", .str "A"), ("gameID", .str "g1"), ("playerCount", .int false 3),
        ("players", .arr [.obj [("id", .str "x")]]), ("gameData", .str "AAEC")])),
      gameMsg (some (.obj [("title", .str "B")]))])).1.games.bind (fun gs => mapGet gs (utf8 "B")) =
    some { PlayerCount := 3, Players := some [{ Player.zero with ID := utf8 "x" }],
           GameID := utf8 "g1", GameData := some [0, 1, 2], Title := utf8 "B" } := by
  obtain ⟨a1, a2, a3, a4, a5, a6, a7, a8, a9, a10, a11, a12, a13, a14, a15⟩ := gameKeys
  obtain ⟨arr, harr, htake⟩ := decodeArray_single rt.players Player.zero decPlayer
    (.obj [("id", .str "x")])
  have hp : decPlayer (.obj [("id", .str "x")]) Player.zero =
      ({ Player.zero with ID := utf8 "x" }, true) := by decide
  rw [hp] at harr htake
  have hb : b64Decode "AAEC" = some [0, 1, 2] := by decide
  have hl : (utf8 "AAEC").length = 4 := by decide
  have hAB : utf8 "A" ≠ utf8 "B" := by decide
  simp [FetchGames, quietWorld, gameMsg, fetchLoop, fetchStep, readGames, Unmarshal, storeField,
    decPlayers, decGameData, decString, decInt, harr, htake, hb, hl, hAB, GameVar.read, view,
    GameVar.zero, mapSet, mapGet,
    a1, a2, a3, a4, a5, a6, a7, a8, a9, a10, a11, a12, a13, a14, a15]

/-- Every entry of the map of the loop sits under its own title. -/
theorem fetchLoop_titles (rt : Growth) (msgs : List WakuMessage) (st : Loop)
    (hinv : ∀ k g, mapGet st.games k = some g → g.Title = k) :
    ∀ k g, mapGet (msgs.foldl (fetchStep rt) st).games k = some g → g.Title = k := by
  induction msgs generalizing st with
  | nil => exact hinv
  | cons m ms ih =>
    rw [List.foldl_cons]
    apply ih
    intro k g hk
    simp only [fetchStep, mapGet_mapSet] at hk
    split at hk
    · rename_i heq
      cases hk
      exact heq
    · exact hinv k g hk

/-- C6, as the code has it: the map returned by `FetchGames` is keyed by title. Every key equals
the `Title` of the entry stored under it. -/
theorem FetchGames_keyed_by_title (rt : Growth) (w : World) (gs : List (GoString × LiveGame))
    (k : GoString) (g : LiveGame) (h : (FetchGames rt w).1.games = some gs)
    (hk : mapGet gs k = some g) : g.Title = k := by
  unfold FetchGames at h
  cases hq : w.storeAnswer w.queries.length ⟨[contentTopicGames], pubSubTopic⟩ with
  | error e => simp [hq] at h
  | ok msgs =>
    simp only [hq] at h
    cases h
    rw [mapGet_readGames] at hk
    cases hv : mapGet (fetchLoop rt msgs).games k with
    | none => simp [hv] at hk
    | some v =>
      simp only [hv, Option.map_some'] at hk
      cases hk
      exact fetchLoop_titles rt msgs _ (fun _ _ h0 => by simp [mapGet] at h0) k v hv

/-- Witness for C6: one record with title `A` and id `g1`. -/
theorem FetchGames_keyed_by_title_witness :
    (FetchGames go120 (quietWorld 1 [gameMsg (plainRecord "A" "g1" 1)])).1.games =
      some [(utf8 "A", ⟨1, none, utf8 "g1", none, utf8 "A"⟩)] ∧
    mapGet [(utf8 "A", (⟨1, none, utf8 "g1", none, utf8 "A"⟩ : LiveGame))] (utf8 "A") =
      some ⟨1, none, utf8 "g1", none, utf8 "A"⟩ ∧
    (⟨1, none, utf8 "g1", none, utf8 "A"⟩ : LiveGame).Title = utf8 "A" :=
  ⟨rfl, rfl,
    FetchGames_keyed_by_title go120 (quietWorld 1 [gameMsg (plainRecord "A" "g1" 1)]) _ _ _ rfl rfl⟩

/-- C6 fails on the code: two records with the same title and different ids end up in one entry,
whose key is the title and not the id. -/
theorem FetchGames_key_is_not_the_id :
    (FetchGames go120 (quietWorld 1 [gameMsg (plainRecord "A" "g1" 1),
        gameMsg (plainRecord "A" "g2" 1)])).1.games =
      some [(utf8 "A", ⟨1, none, utf8 "g2", none, utf8 "A"⟩)] ∧
    utf8 "A" ≠ (⟨1, none, utf8 "g2", none, utf8 "A"⟩ : LiveGame).GameID := by
  decide

/-- Where a key ends up after the loop has run over payloads that fix their title, id and count:
either some message of the list has that title and the entry carries its three values, or no
message has it and the entry is the one from before the loop. -/
theorem fetchLoop_core (rt : Growth) (msgs : List WakuMessage)
    (hfix : ∀ m ∈ msgs, Fixes rt m.Payload) (st : Loop) (k : GoString) :
    (∃ m ∈ msgs, (freshCore rt m.Payload).1 = k ∧
      (mapGet (msgs.foldl (fetchStep rt) st).games k).map GameVar.core =
        some (freshCore rt m.Payload)) ∨
    ((∀ m ∈ msgs, (freshCore rt m.Payload).1 ≠ k) ∧
      mapGet (msgs.foldl (fetchStep rt) st).games k = mapGet st.games k) := by
  induction msgs generalizing st with
  | nil => exact Or.inr ⟨by simp, rfl⟩
  | cons m ms ih =>
    have hm := hfix m (List.mem_cons_self m ms)
    have hms : ∀ x ∈ ms, Fixes rt x.Payload := fun x hx => hfix x (List.mem_cons_of_mem m hx)
    rw [List.foldl_cons]
    rcases ih hms (fetchStep rt st m) with ⟨x, hx, ht, hg⟩ | ⟨hne, hg⟩
    · exact Or.inl ⟨x, List.mem_cons_of_mem m hx, ht, hg⟩
    · have hcore := hm st.heap st.game
      have htitle : (Unmarshal rt m.Payload st.heap st.game).game.Title =
          (freshCore rt m.Payload).1 := congrArg Prod.fst hcore
      by_cases hk : (freshCore rt m.Payload).1 = k
      · refine Or.inl ⟨m, List.mem_cons_self m ms, hk, ?_⟩
        rw [hg]
        simp only [fetchStep, mapGet_mapSet, htitle, hk, if_true, Option.map_some']
        rw [hcore]
      · refine Or.inr ⟨?_, ?_⟩
        · intro x hx
          rcases List.mem_cons.mp hx with rfl | hx
          · exact hk
          · exact hne x hx
        · rw [hg]
          simp only [fetchStep, mapGet_mapSet, htitle, hk, if_false]

/-- C8, as the code has it: `FetchGames` takes the messages in the order of the answer and reads
no timestamp. Two answers that are permutations of each other give maps with the same keys and,
under each key, the same title, id and player count, provided every payload fixes these three and
payloads with the same title carry the same id and count. -/
theorem FetchGames_order_of_full_records (rt : Growth) (w1 w2 : World)
    (msgs1 msgs2 : List WakuMessage)
    (h1 : w1.storeAnswer w1.queries.length ⟨[contentTopicGames], pubSubTopic⟩ = .ok msgs1)
    (h2 : w2.storeAnswer w2.queries.length ⟨[contentTopicGames], pubSubTopic⟩ = .ok msgs2)
    (hperm : msgs1.Perm msgs2)
    (hfix : ∀ m ∈ msgs1, Fixes rt m.Payload)
    (hagree : ∀ m ∈ msgs1, ∀ x ∈ msgs1,
      (freshCore rt m.Payload).1 = (freshCore rt x.Payload).1 →
        freshCore rt m.Payload = freshCore rt x.Payload) :
    ∃ gs1 gs2, (FetchGames rt w1).1 = ⟨some gs1, none⟩ ∧ (FetchGames rt w2).1 = ⟨some gs2, none⟩ ∧
      ∀ k, (mapGet gs1 k).map core = (mapGet gs2 k).map core := by
  refine ⟨readGames (fetchLoop rt msgs1), readGames (fetchLoop rt msgs2), ?_, ?_, ?_⟩
  · simp [FetchGames, h1]
  · simp [FetchGames, h2]
  · intro k
    have hread : ∀ st : Loop, (mapGet (readGames st) k).map core =
        (mapGet st.games k).map GameVar.core := by
      intro st
      rw [mapGet_readGames]
      cases mapGet st.games k <;> rfl
    rw [hread, hread]
    have hfix2 : ∀ m ∈ msgs2, Fixes rt m.Payload := fun m hm => hfix m (hperm.mem_iff.mpr hm)
    rcases fetchLoop_core rt msgs1 hfix ⟨⟨[], []⟩, GameVar.zero, [], 0, 0⟩ k with
      ⟨m, hm, ht, hg⟩ | ⟨hne, hg⟩
    · rcases fetchLoop_core rt msgs2 hfix2 ⟨⟨[], []⟩, GameVar.zero, [], 0, 0⟩ k with
        ⟨x, hx, hxt, hxg⟩ | ⟨hxne, _⟩
      · unfold fetchLoop
        rw [hg, hxg, hagree m hm x (hperm.mem_iff.mpr hx) (ht.trans hxt.symm)]
      · exact absurd ht (hxne m (hperm.mem_iff.mp hm))
    · rcases fetchLoop_core rt msgs2 hfix2 ⟨⟨[], []⟩, GameVar.zero, [], 0, 0⟩ k with
        ⟨x, hx, hxt, _⟩ | ⟨_, hxg⟩
      · exact absurd hxt (hne x (hperm.mem_iff.mpr hx))
      · unfold fetchLoop
        rw [hg, hxg]

/-- The payload `plainRecord t g n` fixes its three values. -/
theorem plainRecord_fixes (rt : Growth) (t g : String) (n : Nat) (hn : n ≤ 9223372036854775807) :
    Fixes rt (plainRecord t g n) := by
  intro heap game
  have h1 : (-9223372036854775808 : Int) ≤ (n : Int) := by omega
  have h2 : (n : Int) ≤ 9223372036854775807 := by omega
  have k1 : keyMatches "playerCount" "title" = false := by decide
  have k2 : keyMatches "players" "title" = false := by decide
  have k3 : keyMatches "gameID" "title" = false := by decide
  have k4 : keyMatches "gameData" "title" = false := by decide
  have k5 : keyMatches "title" "title" = true := by decide
  have k6 : keyMatches "playerCount" "gameID" = false := by decide
  have k7 : keyMatches "players" "gameID" = false := by decide
  have k8 : keyMatches "gameID" "gameID" = true := by decide
  have k9 : keyMatches "playerCount" "playerCount" = true := by decide
  simp [Unmarshal, freshCore, plainRecord, storeField, decString, decInt, GameVar.core, h1, h2,
    k1, k2, k3, k4, k5, k6, k7, k8, k9]

/-- Witness for C8: the records `A` and `B`, published at times 1 and 2, in both orders. -/
theorem FetchGames_order_of_full_records_witness :
    (FetchGames go120 (quietWorld 1 [gameMsgAt 1 (plainRecord "A" "g1" 1),
      gameMsgAt 2 (plainRecord "B" "g2" 2)])).1 =
      ⟨some [(utf8 "A", ⟨1, none, utf8 "g1", none, utf8 "A"⟩),
        (utf8 "B", ⟨2, none, utf8 "g2", none, utf8 "B"⟩)], none⟩ ∧
    (FetchGames go120 (quietWorld 1 [gameMsgAt 2 (plainRecord "B" "g2" 2),
      gameMsgAt 1 (plainRecord "A" "g1" 1)])).1 =
      ⟨some [(utf8 "B", ⟨2, none, utf8 "g2", none, utf8 "B"⟩),
        (utf8 "A", ⟨1, none, utf8 "g1", none, utf8 "A"⟩)], none⟩ ∧
    ∃ gs1 gs2,
      (FetchGames go120 (quietWorld 1 [gameMsgAt 1 (plainRecord "A" "g1" 1),
        gameMsgAt 2 (plainRecord "B" "g2" 2)])).1 = ⟨some gs1, none⟩ ∧
      (FetchGames go120 (quietWorld 1 [gameMsgAt 2 (plainRecord "B" "g2" 2),
        gameMsgAt 1 (plainRecord "A" "g1" 1)])).1 = ⟨some gs2, none⟩ ∧
      ∀ k, (mapGet gs1 k).map core = (mapGet gs2 k).map core :=
  ⟨rfl, rfl,
    FetchGames_order_of_full_records go120 _ _
      [gameMsgAt 1 (plainRecord "A" "g1" 1), gameMsgAt 2 (plainRecord "B" "g2" 2)]
      [gameMsgAt 2 (plainRecord "B" "g2" 2), gameMsgAt 1 (plainRecord "A" "g1" 1)]
      rfl rfl (List.Perm.swap _ _ _)
      (by
        intro m hm
        simp only [List.mem_cons, List.mem_singleton, List.not_mem_nil, or_false] at hm
        rcases hm with rfl | rfl
        · exact plainRecord_fixes go120 "A" "g1" 1 (by decide)
        · exact plainRecord_fixes go120 "B" "g2" 2 (by decide))
      (by
        intro m hm x hx
        simp only [List.mem_cons, List.mem_singleton, List.not_mem_nil, or_false] at hm hx
        rcases hm with rfl | rfl <;> rcases hx with rfl | rfl <;> decide)⟩

/-- C8 fails on the code: two records with the same title, published at times 1 and 2. Returned
in this order the entry holds the id `g2`, returned in the other order it holds `g1`. -/
theorem FetchGames_depends_on_order :
    List.Perm [gameMsgAt 1 (plainRecord "A" "g1" 1), gameMsgAt 2 (plainRecord "A" "g2" 1)]
      [gameMsgAt 2 (plainRecord "A" "g2" 1), gameMsgAt 1 (plainRecord "A" "g1" 1)] ∧
    (FetchGames go120 (quietWorld 1 [gameMsgAt 1 (plainRecord "A" "g1" 1),
      gameMsgAt 2 (plainRecord "A" "g2" 1)])).1 =
      ⟨some [(utf8 "A", ⟨1, none, utf8 "g2", none, utf8 "A"⟩)], none⟩ ∧
    (FetchGames go120 (quietWorld 1 [gameMsgAt 2 (plainRecord "A" "g2" 1),
      gameMsgAt 1 (plainRecord "A" "g1" 1)])).1 =
      ⟨some [(utf8 "A", ⟨1, none, utf8 "g1", none, utf8 "A"⟩)], none⟩ ∧
    (FetchGames go120 (quietWorld 1 [gameMsgAt 1 (plainRecord "A" "g1" 1),
      gameMsgAt 2 (plainRecord "A" "g2" 1)])).1 ≠
    (FetchGames go120 (quietWorld 1 [gameMsgAt 2 (plainRecord "A" "g2" 1),
      gameMsgAt 1 (plainRecord "A" "g1" 1)])).1 :=
  ⟨List.Perm.swap _ _ _, rfl, rfl, by decide⟩

end WSudoku
